import Mathlib

/-
Shallow embedding of the py-pva population viability analysis core:
`src/vital_rates.py`, `src/catastrophe.py`, `src/population.py`,
`src/simulation.py`.

Modelling conventions:
* Machine floats are modelled as exact rationals (ℚ).
* Python `round` on floats is round-half-to-even (banker's rounding);
  `int(round(x))` on the nonnegative quantities of this program is
  `(roundHalfEven x).toNat`.
* `.astype(int)` on nonnegative floats truncates, i.e. takes the floor.
* Counts are ℕ, matching the program's invariant that all observable
  counts are nonnegative integers.
* The numpy global random generator is modelled by an abstract state σ
  together with a `Dist σ` record of sampling functions; every sampling
  call consumes and returns the state, in the exact order the source
  performs its draws.  `Dist.Valid` records the support facts used in
  proofs: a binomial draw is at most its count argument, and
  `np.random.random()` lies in [0, 1).
* Arrays indexed out of range (which raise IndexError in the source,
  e.g. zero age classes) are read as 0 via `getD`; no claim touches
  those error paths.
-/

namespace PVA

/-- Round half to even on ℚ, the rounding used by Python's `round`. -/
def roundHalfEven (q : ℚ) : ℤ :=
  let f := ⌊q⌋
  let r := q - (f : ℚ)
  if r < 1/2 then f
  else if (1 : ℚ)/2 < r then f + 1
  else if f % 2 = 0 then f else f + 1

/-- `int(round(c * rate))` for a count `c` and a rate, as the source
computes deterministic survivor / birth numbers. -/
def detCount (c : ℕ) (rate : ℚ) : ℕ := (roundHalfEven ((c : ℚ) * rate)).toNat

/-- `np.clip(x, 0.0, 1.0)`. -/
def clip01 (x : ℚ) : ℚ := max 0 (min 1 x)

/-- `np.clip(x, 0.0, None)`. -/
def clip0 (x : ℚ) : ℚ := max 0 x

/-- `vital_rates.py`: age-specific survival and fertility rates. The
dataclass performs no validation of its fields. -/
structure VitalRates where
  female_survival : List ℚ
  male_survival : List ℚ
  female_fertility : List ℚ
  male_fertility : List ℚ
  env_sd_survival : ℚ := 0
  env_sd_fertility : ℚ := 0
deriving DecidableEq

/-- `catastrophe.py`: probability of occurrence and mortality fraction.
The dataclass performs no validation of its fields. -/
structure Catastrophe where
  probability : ℚ
  mortality_rate : ℚ
deriving DecidableEq

/-- `population.py`: two-sex age-structured counts. -/
structure Population where
  female : List ℕ
  male : List ℕ
  carrying_capacity : Option ℕ := none
  reproduction_age : ℕ := 1
  male_birth_prop : ℚ := 1/2
deriving DecidableEq

/-- The numpy global generator, abstracted: a state σ and the sampling
primitives the source calls, each returning the drawn value and the
successor state. `seedFn` models `np.random.seed`, `randint` models
`np.random.randint(0, 2**32 - 1)`. -/
structure Dist (σ : Type) where
  binomial : σ → ℕ → ℚ → ℕ × σ
  poisson : σ → ℚ → ℕ × σ
  uniform : σ → ℚ × σ
  normal : σ → ℚ → ℚ → ℚ × σ
  randint : σ → ℕ × σ
  seedFn : ℕ → σ

/-- Support facts of the real distributions that proofs rely on:
`Binomial(n, p) ≤ n` and `np.random.random() ∈ [0, 1)`. -/
def Dist.Valid {σ : Type} (d : Dist σ) : Prop :=
  (∀ st n p, (d.binomial st n p).1 ≤ n) ∧
  (∀ st, 0 ≤ (d.uniform st).1 ∧ (d.uniform st).1 < 1)

/-- Draw a vector of `n` normals, as `np.random.normal(mean, sd, size=n)`. -/
def normalVec {σ : Type} (d : Dist σ) (mean sd : ℚ) : ℕ → σ → List ℚ × σ
  | 0, st => ([], st)
  | n + 1, st =>
    let x := d.normal st mean sd
    let rest := normalVec d mean sd n x.2
    (x.1 :: rest.1, rest.2)

/-- `VitalRates.apply_environmental_noise`: multiply each rate by a
Normal(1, sd) deviate when the corresponding sd is positive, clipping
survival to [0,1] and fertility below at 0. -/
def applyEnvNoise {σ : Type} (d : Dist σ) (vr : VitalRates) (st : σ) :
    (List ℚ × List ℚ × List ℚ × List ℚ) × σ :=
  let sp :=
    if 0 < vr.env_sd_survival then
      let fn := normalVec d 1 vr.env_sd_survival vr.female_survival.length st
      let mn := normalVec d 1 vr.env_sd_survival vr.male_survival.length fn.2
      (List.zipWith (fun r x => clip01 (r * x)) vr.female_survival fn.1,
       List.zipWith (fun r x => clip01 (r * x)) vr.male_survival mn.1, mn.2)
    else (vr.female_survival, vr.male_survival, st)
  let fp :=
    if 0 < vr.env_sd_fertility then
      let fn := normalVec d 1 vr.env_sd_fertility vr.female_fertility.length sp.2.2
      let mn := normalVec d 1 vr.env_sd_fertility vr.male_fertility.length fn.2
      (List.zipWith (fun r x => clip0 (r * x)) vr.female_fertility fn.1,
       List.zipWith (fun r x => clip0 (r * x)) vr.male_fertility mn.1, mn.2)
    else (vr.female_fertility, vr.male_fertility, sp.2.2)
  ((sp.1, sp.2.1, fp.1, fp.2.1), fp.2.2)

/-- Read a count array at an index (`arr[i]`; 0 beyond the end). -/
def getN (l : List ℕ) (i : ℕ) : ℕ := l.getD i 0

/-- `arr[i] += v` as a functional update (no-op beyond the end). -/
def addAt : List ℕ → ℕ → ℕ → List ℕ
  | [], _, _ => []
  | c :: t, 0, v => (c + v) :: t
  | c :: t, i + 1, v => c :: addAt t i v

/-- `arr[i] = v` as a functional update (no-op beyond the end). -/
def setAt : List ℕ → ℕ → ℕ → List ℕ
  | [], _, _ => []
  | _ :: t, 0, v => v :: t
  | c :: t, i + 1, v => c :: setAt t i v

/-- One survivor draw of the survival loop: `Binomial(count[i],
survival[i])` under demographic noise, `int(round(count[i] *
survival[i]))` without, at the current generator state. -/
def survDraw {σ : Type} (d : Dist σ) (demo : Bool) (rates : List ℚ)
    (old : List ℕ) (i : ℕ) (st : σ) : ℕ × σ :=
  match demo with
  | true => d.binomial st (getN old i) (rates.getD i 0)
  | false => (detCount (getN old i) (rates.getD i 0), st)

/-- One iteration `i` of the survival loop of
`Population.advance_generation`: draw (or deterministically round)
female then male survivors of age class `i` and add them into class
`i + 1` of the next-generation arrays. -/
def survIter {σ : Type} (d : Dist σ) (demo : Bool) (fs ms : List ℚ)
    (oldF oldM : List ℕ) (acc : List ℕ × List ℕ × σ) (i : ℕ) :
    List ℕ × List ℕ × σ :=
  let pf := survDraw d demo fs oldF i acc.2.2
  let pm := survDraw d demo ms oldM i pf.2
  (addAt acc.1 (i + 1) pf.1, addAt acc.2.1 (i + 1) pm.1, pm.2)

/-- Survival / aging step of `advance_generation`: shift survivors of
classes 0..A-2 up one class, then add the survivors of the last class
back into the last class (the plus-group). The source raises
IndexError when there are zero age classes; we return empty arrays. -/
def survStep {σ : Type} (d : Dist σ) (demo : Bool) (fs ms : List ℚ)
    (oldF oldM : List ℕ) (st : σ) : List ℕ × List ℕ × σ :=
  let A := oldF.length
  let mid := (List.range (A - 1)).foldl (survIter d demo fs ms oldF oldM)
    (List.replicate A 0, List.replicate oldM.length 0, st)
  if A = 0 then mid
  else
    let pf := survDraw d demo fs oldF (A - 1) mid.2.2
    let pm := survDraw d demo ms oldM (oldM.length - 1) pf.2
    (addAt mid.1 (A - 1) pf.1, addAt mid.2.1 (oldM.length - 1) pm.1, pm.2)

/-- One iteration of the reproduction loop: births from the females of
one age class of the already-aged next-generation array (Poisson with
mean count*rate under demographic noise, `round(count*rate)` without). -/
def reproIter {σ : Type} (d : Dist σ) (demo : Bool) (ff : List ℚ)
    (nf : List ℕ) (acc : ℕ × σ) (i : ℕ) : ℕ × σ :=
  let p :=
    match demo with
    | true => d.poisson acc.2 ((getN nf i : ℚ) * ff.getD i 0)
    | false => (detCount (getN nf i) (ff.getD i 0), acc.2)
  (acc.1 + p.1, p.2)

/-- Reproduction step: total births summed over age classes
`reproduction_age .. A-1`, reading the post-survival female array. -/
def reproStep {σ : Type} (d : Dist σ) (demo : Bool) (ff : List ℚ)
    (ra A : ℕ) (nf : List ℕ) (st : σ) : ℕ × σ :=
  (List.range' ra (A - ra)).foldl (reproIter d demo ff nf) (0, st)

/-- Sex assignment of births: male births are `Binomial(births, prop)`
with demographic noise, `round(births * prop)` without; the remainder
is female. No draw is consumed when there are no births. Returns
(female births, male births, state). -/
def sexSplit {σ : Type} (d : Dist σ) (demo : Bool) (births : ℕ)
    (prop : ℚ) (st : σ) : ℕ × ℕ × σ :=
  if 0 < births then
    let pm :=
      match demo with
      | true => d.binomial st births prop
      | false => (detCount births prop, st)
    (births - pm.1, pm.1, pm.2)
  else (0, 0, st)

/-- The thinning loop of `Catastrophe.apply` once the event fires:
each class of each sex keeps `Binomial(count, keep)` individuals with
demographic noise, `round(count * keep)` without (female then male at
each index). -/
def thinLists {σ : Type} (d : Dist σ) (demo : Bool) (keep : ℚ) :
    List ℕ → List ℕ → σ → List ℕ × List ℕ × σ
  | [], nm, st => ([], nm, st)
  | c :: ft, nm, st =>
    let x :=
      match demo with
      | true => d.binomial st c keep
      | false => (detCount c keep, st)
    let y :=
      match demo with
      | true => d.binomial x.2 (nm.headD 0) keep
      | false => (detCount (nm.headD 0) keep, x.2)
    let rest := thinLists d demo keep ft nm.tail y.2
    (x.1 :: rest.1, y.1 :: rest.2.1, rest.2.2)

/-- `Catastrophe.apply`: always consumes one `np.random.random()` draw
(in `occurs`); if it is below `probability` the thinning loop removes
the `mortality_rate` fraction from every class of both sexes. -/
def Catastrophe.apply {σ : Type} (cat : Catastrophe) (d : Dist σ)
    (demo : Bool) (nf nm : List ℕ) (st : σ) : List ℕ × List ℕ × σ :=
  let u := d.uniform st
  if u.1 < cat.probability then
    thinLists d demo (1 - cat.mortality_rate) nf nm u.2
  else (nf, nm, u.2)

/-- Sequential binomial draws over a count array (the list
comprehension of the stochastic carrying-capacity rescaling). -/
def binomList {σ : Type} (d : Dist σ) (p : ℚ) :
    List ℕ → σ → List ℕ × σ
  | [], st => ([], st)
  | c :: rest, st =>
    let x := d.binomial st c p
    let y := binomList d p rest x.2
    (x.1 :: y.1, y.2)

/-- Carrying-capacity enforcement: when a capacity `K` is configured
and the total exceeds it (and is positive), rescale every class by
`K / total` — `Binomial(count, K/total)` per class with demographic
noise, `floor(count * K/total)` (`.astype(int)`) without. -/
def capacityStep {σ : Type} (d : Dist σ) (demo : Bool)
    (cap : Option ℕ) (nf nm : List ℕ) (st : σ) : List ℕ × List ℕ × σ :=
  match cap with
  | none => (nf, nm, st)
  | some K =>
    let total := nf.sum + nm.sum
    if K < total ∧ 0 < total then
      let frac : ℚ := (K : ℚ) / (total : ℚ)
      match demo with
      | true =>
        let sf := binomList d frac nf st
        let sm := binomList d frac nm sf.2
        (sf.1, sm.1, sm.2)
      | false =>
        (nf.map (fun (c : ℕ) => (⌊(c : ℚ) * frac⌋).toNat),
         nm.map (fun (c : ℕ) => (⌊(c : ℚ) * frac⌋).toNat), st)
    else (nf, nm, st)

/-- `Population.advance_generation`: environmental noise on the rates,
survival/aging, reproduction into class 0, optional catastrophe,
carrying-capacity enforcement, in exactly the source's order. Returns
the updated population and the generator state. -/
def advance_generation {σ : Type} (d : Dist σ) (st : σ) (pop : Population)
    (vr : VitalRates) (cat : Option Catastrophe) (demo env : Bool) :
    Population × σ :=
  let rates :=
    match env with
    | true => applyEnvNoise d vr st
    | false => ((vr.female_survival, vr.male_survival,
                 vr.female_fertility, vr.male_fertility), st)
  let fsurv := rates.1.1
  let msurv := rates.1.2.1
  let ffert := rates.1.2.2.1
  let A := pop.female.length
  let sv := survStep d demo fsurv msurv pop.female pop.male rates.2
  let rb := reproStep d demo ffert pop.reproduction_age A sv.1 sv.2.2
  let sx := sexSplit d demo rb.1 pop.male_birth_prop rb.2
  let nf1 := setAt sv.1 0 sx.1
  let nm1 := setAt sv.2.1 0 sx.2.1
  let ct :=
    match cat with
    | none => (nf1, nm1, sx.2.2)
    | some c => Catastrophe.apply c d demo nf1 nm1 sx.2.2
  let cp := capacityStep d demo pop.carrying_capacity ct.1 ct.2.1 ct.2.2
  ({ pop with female := cp.1, male := cp.2.1 }, cp.2.2)

/-- `Population.total_population`. -/
def Population.total_population (pop : Population) : ℕ :=
  pop.female.sum + pop.male.sum

/-- `Population.is_extinct`: total at or below the threshold. -/
def Population.is_extinct (pop : Population) (q : ℕ) : Prop :=
  pop.total_population ≤ q

instance (pop : Population) (q : ℕ) : Decidable (pop.is_extinct q) :=
  Nat.decLe _ _

/-- One row of a recorded trajectory. -/
structure Row where
  generation : ℕ
  female : ℕ
  male : ℕ
  total : ℕ
deriving DecidableEq

/-- Read a trajectory at an index (an all-zero row beyond the end). -/
def rowAt (l : List Row) (i : ℕ) : Row := l.getD i ⟨0, 0, 0, 0⟩

/-- The parameters of `Simulation.__init__` other than the seed. -/
structure SimParams where
  vital_rates : VitalRates
  initial_females : List ℕ
  initial_males : List ℕ
  catastrophe : Option Catastrophe := none
  carrying_capacity : Option ℕ := none
  n_generations : ℕ := 100
  q_threshold : ℕ := 50
  n_replicates : ℕ := 100
  demo_noise : Bool := true
  env_noise : Bool := true
deriving DecidableEq

/-- `SimulationResult`: per-replicate trajectories, a parallel list of
extinction times (`none` is the "never" / infinity sentinel), and the
threshold used. -/
structure SimulationResult where
  trajectories : List (List Row)
  extinction_times : List (Option ℕ)
  q_threshold : ℕ
deriving DecidableEq

/-- The record appended for a generation. -/
def mkRow (g : ℕ) (pop : Population) : Row :=
  ⟨g, pop.female.sum, pop.male.sum, pop.total_population⟩

/-- The fresh population a replicate starts from. -/
def initPop (P : SimParams) : Population :=
  ⟨P.initial_females, P.initial_males, P.carrying_capacity, 1, 1/2⟩

/-- The generation loop of one replicate of `Simulation.run`: advance,
record, and stop at the first generation whose total is at or below
the threshold. `rem` is the number of generations left, `gen` the index
of the next one. Returns the recorded rows and the extinction time. -/
def simLoop {σ : Type} (d : Dist σ) (P : SimParams) :
    ℕ → ℕ → Population → σ → List Row × Option ℕ
  | 0, _, _, _ => ([], none)
  | rem + 1, gen, pop, st =>
    let a := advance_generation d st pop P.vital_rates P.catastrophe
      P.demo_noise P.env_noise
    let row := mkRow gen a.1
    if a.1.is_extinct P.q_threshold then ([row], some gen)
    else
      let rest := simLoop d P rem (gen + 1) a.1 a.2
      (row :: rest.1, rest.2)

/-- The zero-valued rows padded after quasi-extinction at generation
`g`, covering generations `g+1 .. n`. -/
def padRows (g n : ℕ) : List Row :=
  (List.range (n - g)).map (fun k => ⟨g + 1 + k, 0, 0, 0⟩)

/-- One replicate of `Simulation.run`: reseed the generator, record
generation 0 from the initial state, run the generation loop, and pad
with zero rows up to the horizon if extinction came before it. -/
def runReplicate {σ : Type} (d : Dist σ) (P : SimParams) (seedVal : ℕ) :
    List Row × Option ℕ :=
  let st := d.seedFn seedVal
  let pop := initPop P
  let first := mkRow 0 pop
  let res := simLoop d P P.n_generations 1 pop st
  let rows := first :: res.1
  match res.2 with
  | some g =>
    if g < P.n_generations then (rows ++ padRows g P.n_generations, some g)
    else (rows, some g)
  | none => (rows, none)

/-- Base-seed resolution of `Simulation.run`: the explicit seed when
given, else one `np.random.randint(0, 2**32 - 1)` draw from the
current global state. -/
def resolveBase {σ : Type} (d : Dist σ) (st : σ) (seed : Option ℕ) : ℕ :=
  match seed with
  | some v => v
  | none => (d.randint st).1

/-- `Simulation.run`: for each replicate `r`, reseed with
`(base_seed + r) % (2**32 - 1)` and run the replicate; collect the
trajectories and extinction times in replicate order. -/
def runSim {σ : Type} (d : Dist σ) (st : σ) (P : SimParams)
    (seed : Option ℕ) : SimulationResult :=
  let base := resolveBase d st seed
  let reps := (List.range P.n_replicates).map
    (fun r => runReplicate d P ((base + r) % (2 ^ 32 - 1)))
  ⟨reps.map Prod.fst, reps.map Prod.snd, P.q_threshold⟩

/-- `np.mean` of a list of extinction times. -/
def meanTimes (l : List ℕ) : ℚ := (l.sum : ℚ) / (l.length : ℚ)

/-- `np.median` of a list of extinction times: middle order statistic,
or the average of the two middle ones for an even length. -/
def medianTimes (l : List ℕ) : ℚ :=
  let s := List.insertionSort (· ≤ ·) l
  let k := s.length
  if k % 2 = 1 then (s.getD (k / 2) 0 : ℚ)
  else ((s.getD (k / 2 - 1) 0 : ℚ) + (s.getD (k / 2) 0 : ℚ)) / 2

/-- The summary table of `SimulationResult.summary`. `none` stands for
the float NaN sentinel. -/
structure Summary where
  replicates : ℕ
  extinct : ℕ
  extinction_probability : Option ℚ
  mean_time_to_extinction : Option ℚ
  median_time_to_extinction : Option ℚ
deriving DecidableEq

/-- `SimulationResult.summary`: replicate count, count of finite
extinction times, extinction probability, and mean / median over the
finite times only, with NaN sentinels for empty denominators. -/
def SimulationResult.summary (res : SimulationResult) : Summary :=
  let n := res.extinction_times.length
  let nx := res.extinction_times.countP (fun t => t.isSome)
  let times := res.extinction_times.filterMap id
  ⟨n, nx,
   if n ≠ 0 then some ((nx : ℚ) / (n : ℚ)) else none,
   if times ≠ [] then some (meanTimes times) else none,
   if times ≠ [] then some (medianTimes times) else none⟩

/-- A trivial generator state: every draw returns 0 (a legal outcome
of every distribution used, since `Binomial(n, p)` can be 0 and
`np.random.random()` can be 0). Used to instantiate witnesses. -/
def unitDist : Dist Unit where
  binomial := fun _ _ _ => (0, ())
  poisson := fun _ _ => (0, ())
  uniform := fun _ => (0, ())
  normal := fun _ _ _ => (0, ())
  randint := fun _ => (0, ())
  seedFn := fun _ => ()

/-- A generator whose binomial draws come out at their maximum `n` —
a possible outcome of `Binomial(n, p)` for any `p > 0` — and whose
Poisson draws are 0 (the certain outcome at mean 0). -/
def maxDist : Dist Unit where
  binomial := fun _ n _ => (n, ())
  poisson := fun _ _ => (0, ())
  uniform := fun _ => (0, ())
  normal := fun _ _ _ => (0, ())
  randint := fun _ => (0, ())
  seedFn := fun _ => ()

/-- A generator over state ℕ whose single uniform stream returns 1/4
on the first draw and 3/4 afterwards — both legal `np.random.random()`
outcomes — advancing the state on every draw. -/
def cexDist : Dist ℕ where
  binomial := fun s n _ => (n, s + 1)
  poisson := fun s _ => (0, s + 1)
  uniform := fun s => (if s = 0 then (1 : ℚ)/4 else 3/4, s + 1)
  normal := fun s _ _ => (1, s + 1)
  randint := fun s => (0, s + 1)
  seedFn := fun v => v

/-- A generator whose binomial draws come out at their maximum `n` and
whose Poisson draws come out at the floor of their mean — legal
outcomes of `Binomial(n, p)` for `p > 0` and of `Poisson(mean)` for
any `mean > 0` (and the certain outcome at mean 0). It makes the
Poisson means observable in the output counts. -/
def meanDist : Dist Unit where
  binomial := fun _ n _ => (n, ())
  poisson := fun _ mean => ((⌊mean⌋).toNat, ())
  uniform := fun _ => (0, ())
  normal := fun _ mean _ => (mean, ())
  randint := fun _ => (0, ())
  seedFn := fun _ => ()

/- ------------------------------------------------------------------ -/
/- List access toolkit.                                               -/
/- ------------------------------------------------------------------ -/

theorem getD_append_lt {α : Type} :
    ∀ (l1 l2 : List α) (dv : α) (j : ℕ), j < l1.length →
      (l1 ++ l2).getD j dv = l1.getD j dv
  | [], _, _, j, h => absurd h (by simp)
  | _ :: _, _, _, 0, _ => rfl
  | _ :: t, l2, dv, j + 1, h =>
    getD_append_lt t l2 dv j (by simpa using h)

theorem getD_append_ge {α : Type} :
    ∀ (l1 l2 : List α) (dv : α) (j : ℕ), l1.length ≤ j →
      (l1 ++ l2).getD j dv = l2.getD (j - l1.length) dv
  | [], _, _, _, _ => by simp
  | a :: t, l2, dv, 0, h => absurd h (by simp)
  | a :: t, l2, dv, j + 1, h => by
    have := getD_append_ge t l2 dv j (by simpa using h)
    simpa [List.cons_append] using this

theorem getD_map_range {β : Type} (f : ℕ → β) (dv : β) :
    ∀ (n r : ℕ), r < n → ((List.range n).map f).getD r dv = f r := by
  intro n
  induction n with
  | zero => intro r h; omega
  | succ n ih =>
    intro r h
    rw [List.range_succ, List.map_append]
    rcases Nat.lt_or_ge r n with h1 | h1
    · rw [getD_append_lt _ _ _ _ (by simpa using h1)]
      exact ih r h1
    · have hr : r = n := by omega
      subst hr
      rw [getD_append_ge _ _ _ _ (by simp)]
      simp

theorem rowAt_cons_pos (r : Row) (l : List Row) (g : ℕ) (h : 1 ≤ g) :
    rowAt (r :: l) g = rowAt l (g - 1) := by
  cases g with
  | zero => omega
  | succ j => rfl

theorem padRows_length (g n : ℕ) : (padRows g n).length = n - g := by
  simp [padRows]

theorem rowAt_padRows (g n k : ℕ) (h : k < n - g) :
    rowAt (padRows g n) k = ⟨g + 1 + k, 0, 0, 0⟩ := by
  unfold rowAt padRows
  exact getD_map_range _ _ _ _ h

/- ------------------------------------------------------------------ -/
/- Closed forms for the deterministic (demo_noise = false) branches.  -/
/- ------------------------------------------------------------------ -/

theorem detCount_zero (rate : ℚ) : detCount 0 rate = 0 := by
  have h : ((0 : ℕ) : ℚ) * rate = 0 := by push_cast; ring
  simp [detCount, roundHalfEven, h]

theorem survFold_det {σ : Type} (d : Dist σ) (fs ms : List ℚ) (oF oM : List ℕ) :
    ∀ (l : List ℕ) (nf nm : List ℕ) (st : σ),
      l.foldl (survIter d false fs ms oF oM) (nf, nm, st) =
        (l.foldl (fun x i => addAt x (i + 1) (detCount (getN oF i) (fs.getD i 0))) nf,
         l.foldl (fun x i => addAt x (i + 1) (detCount (getN oM i) (ms.getD i 0))) nm,
         st)
  | [], _, _, _ => rfl
  | i :: t, nf, nm, st => by
    simp only [List.foldl_cons]
    exact survFold_det d fs ms oF oM t _ _ st

theorem survStep_det_state {σ : Type} (d : Dist σ) (fs ms : List ℚ)
    (oF oM : List ℕ) (st : σ) :
    (survStep d false fs ms oF oM st).2.2 = st := by
  simp only [survStep]
  rw [survFold_det]
  by_cases h : oF.length = 0 <;> simp [h, survDraw]

theorem survStep_det_congr {σ : Type} (d : Dist σ) (fs ms : List ℚ)
    (oF oM : List ℕ) (st1 st2 : σ) :
    (survStep d false fs ms oF oM st1).1 = (survStep d false fs ms oF oM st2).1 ∧
    (survStep d false fs ms oF oM st1).2.1 = (survStep d false fs ms oF oM st2).2.1 := by
  simp only [survStep]
  rw [survFold_det, survFold_det]
  by_cases h : oF.length = 0 <;> simp [h, survDraw]

theorem reproFold_det {σ : Type} (d : Dist σ) (ff : List ℚ) (nf : List ℕ) :
    ∀ (l : List ℕ) (b : ℕ) (st : σ),
      l.foldl (reproIter d false ff nf) (b, st) =
        (b + (l.map (fun i => detCount (getN nf i) (ff.getD i 0))).sum, st)
  | [], b, st => by simp
  | i :: t, b, st => by
    simp only [List.foldl_cons, List.map_cons, List.sum_cons]
    rw [show reproIter d false ff nf (b, st) i =
        (b + detCount (getN nf i) (ff.getD i 0), st) from rfl]
    rw [reproFold_det d ff nf t _ st]
    ring_nf

theorem reproStep_det {σ : Type} (d : Dist σ) (ff : List ℚ) (ra A : ℕ)
    (nf : List ℕ) (st : σ) :
    reproStep d false ff ra A nf st =
      (((List.range' ra (A - ra)).map
          (fun i => detCount (getN nf i) (ff.getD i 0))).sum, st) := by
  unfold reproStep
  rw [reproFold_det]
  simp

theorem sexSplit_det {σ : Type} (d : Dist σ) (b : ℕ) (p : ℚ) (st : σ) :
    sexSplit d false b p st = (b - detCount b p, detCount b p, st) := by
  unfold sexSplit
  by_cases h : 0 < b
  · simp [h]
  · have hb : b = 0 := by omega
    subst hb
    simp [detCount_zero]

theorem thinLists_det_parts {σ : Type} (d : Dist σ) (k : ℚ) :
    ∀ (nf nm : List ℕ) (st1 st2 : σ),
      (thinLists d false k nf nm st1).1 = (thinLists d false k nf nm st2).1 ∧
      (thinLists d false k nf nm st1).2.1 = (thinLists d false k nf nm st2).2.1 ∧
      (thinLists d false k nf nm st1).2.2 = st1
  | [], _, _, _ => ⟨rfl, rfl, rfl⟩
  | c :: ft, nm, st1, st2 => by
    obtain ⟨h1, h2, h3⟩ := thinLists_det_parts d k ft nm.tail st1 st2
    simp only [thinLists]
    exact ⟨by rw [h1], by rw [h2], h3⟩

theorem capacityStep_det_parts {σ : Type} (d : Dist σ) (cap : Option ℕ)
    (nf nm : List ℕ) (st1 st2 : σ) :
    (capacityStep d false cap nf nm st1).1 = (capacityStep d false cap nf nm st2).1 ∧
    (capacityStep d false cap nf nm st1).2.1 = (capacityStep d false cap nf nm st2).2.1 := by
  cases cap with
  | none => exact ⟨rfl, rfl⟩
  | some K =>
    simp only [capacityStep]
    by_cases h : K < nf.sum + nm.sum ∧ 0 < nf.sum + nm.sum
    · rw [if_pos h, if_pos h]
      exact ⟨rfl, rfl⟩
    · rw [if_neg h, if_neg h]
      exact ⟨rfl, rfl⟩

/- ------------------------------------------------------------------ -/
/- Index bookkeeping of the survival loop, any noise mode.            -/
/- ------------------------------------------------------------------ -/

theorem getN_replicate : ∀ (n j : ℕ), getN (List.replicate n 0) j = 0
  | 0, _ => rfl
  | _ + 1, 0 => rfl
  | n + 1, j + 1 => getN_replicate n j

theorem length_addAt : ∀ (l : List ℕ) (i v : ℕ), (addAt l i v).length = l.length
  | [], _, _ => rfl
  | _ :: _, 0, _ => rfl
  | _ :: t, i + 1, v => congrArg Nat.succ (length_addAt t i v)

theorem getN_addAt_ne : ∀ (l : List ℕ) (i j v : ℕ), i ≠ j →
    getN (addAt l i v) j = getN l j
  | [], _, _, _, _ => rfl
  | _ :: _, 0, 0, _, h => absurd rfl h
  | _ :: _, 0, _ + 1, _, _ => rfl
  | _ :: _, _ + 1, 0, _, _ => rfl
  | _ :: t, i + 1, j + 1, v, h => getN_addAt_ne t i j v (by omega)

theorem getN_addAt_eq : ∀ (l : List ℕ) (i v : ℕ), i < l.length →
    getN (addAt l i v) i = getN l i + v
  | [], _, _, h => absurd h (by simp)
  | _ :: _, 0, _, _ => rfl
  | _ :: t, i + 1, v, h => getN_addAt_eq t i v (by simpa using h)

theorem getN_setAt_ne : ∀ (l : List ℕ) (i j v : ℕ), i ≠ j →
    getN (setAt l i v) j = getN l j
  | [], _, _, _, _ => rfl
  | _ :: _, 0, 0, _, h => absurd rfl h
  | _ :: _, 0, _ + 1, _, _ => rfl
  | _ :: _, _ + 1, 0, _, _ => rfl
  | _ :: t, i + 1, j + 1, v, h => getN_setAt_ne t i j v (by omega)

theorem foldl_range_succ {α : Type} (F : α → ℕ → α) (m : ℕ) (acc : α) :
    (List.range (m + 1)).foldl F acc = F ((List.range m).foldl F acc) m := by
  rw [List.range_succ, List.foldl_append]
  rfl

theorem survFold_length {σ : Type} (d : Dist σ) (demo : Bool)
    (fs ms : List ℚ) (oF oM : List ℕ) :
    ∀ (l : List ℕ) (acc : List ℕ × List ℕ × σ),
      ((l.foldl (survIter d demo fs ms oF oM) acc).1.length = acc.1.length ∧
       (l.foldl (survIter d demo fs ms oF oM) acc).2.1.length = acc.2.1.length)
  | [], _ => ⟨rfl, rfl⟩
  | i :: t, acc => by
    simp only [List.foldl_cons]
    obtain ⟨h1, h2⟩ := survFold_length d demo fs ms oF oM t
      (survIter d demo fs ms oF oM acc i)
    exact ⟨by rw [h1]; simp [survIter, length_addAt],
           by rw [h2]; simp [survIter, length_addAt]⟩

theorem survFold_getN_high {σ : Type} (d : Dist σ) (demo : Bool)
    (fs ms : List ℚ) (oF oM : List ℕ) :
    ∀ (m : ℕ) (acc : List ℕ × List ℕ × σ) (j : ℕ), m < j →
      getN ((List.range m).foldl (survIter d demo fs ms oF oM) acc).1 j =
        getN acc.1 j ∧
      getN ((List.range m).foldl (survIter d demo fs ms oF oM) acc).2.1 j =
        getN acc.2.1 j
  | 0, _, _, _ => ⟨rfl, rfl⟩
  | m + 1, acc, j, h => by
    rw [foldl_range_succ]
    obtain ⟨h1, h2⟩ := survFold_getN_high d demo fs ms oF oM m acc j (by omega)
    constructor
    · show getN (addAt _ (m + 1) _) j = _
      rw [getN_addAt_ne _ _ _ _ (by omega)]
      exact h1
    · show getN (addAt _ (m + 1) _) j = _
      rw [getN_addAt_ne _ _ _ _ (by omega)]
      exact h2

theorem survStep_plus_group {σ : Type} (d : Dist σ) (demo : Bool)
    (fs ms : List ℚ) (oF oM : List ℕ) (st : σ)
    (hA : 2 ≤ oF.length) (hm : oM.length = oF.length) :
    getN (survStep d demo fs ms oF oM st).1 (oF.length - 1) =
      (survDraw d demo fs oF (oF.length - 2)
        ((List.range (oF.length - 2)).foldl (survIter d demo fs ms oF oM)
          (List.replicate oF.length 0, List.replicate oM.length 0, st)).2.2).1 +
      (survDraw d demo fs oF (oF.length - 1)
        ((List.range (oF.length - 1)).foldl (survIter d demo fs ms oF oM)
          (List.replicate oF.length 0, List.replicate oM.length 0, st)).2.2).1 ∧
    getN (survStep d demo fs ms oF oM st).2.1 (oF.length - 1) =
      (survDraw d demo ms oM (oF.length - 2)
        (survDraw d demo fs oF (oF.length - 2)
          ((List.range (oF.length - 2)).foldl (survIter d demo fs ms oF oM)
            (List.replicate oF.length 0, List.replicate oM.length 0, st)).2.2).2).1 +
      (survDraw d demo ms oM (oF.length - 1)
        (survDraw d demo fs oF (oF.length - 1)
          ((List.range (oF.length - 1)).foldl (survIter d demo fs ms oF oM)
            (List.replicate oF.length 0, List.replicate oM.length 0, st)).2.2).2).1 := by
  simp only [survStep]
  rw [if_neg (by omega : ¬ oF.length = 0), hm]
  have hlen1 : ((List.range (oF.length - 2)).foldl (survIter d demo fs ms oF oM)
      (List.replicate oF.length 0, List.replicate oF.length 0, st)).1.length =
      oF.length := by
    rw [(survFold_length d demo fs ms oF oM _ _).1, List.length_replicate]
  have hlen2 : ((List.range (oF.length - 2)).foldl (survIter d demo fs ms oF oM)
      (List.replicate oF.length 0, List.replicate oF.length 0, st)).2.1.length =
      oF.length := by
    rw [(survFold_length d demo fs ms oF oM _ _).2, List.length_replicate]
  rw [show oF.length - 1 = (oF.length - 2) + 1 from by omega]
  simp only [foldl_range_succ, survIter]
  constructor
  · rw [getN_addAt_eq _ _ _ (by rw [length_addAt, hlen1]; omega)]
    rw [getN_addAt_eq _ _ _ (by rw [hlen1]; omega)]
    rw [(survFold_getN_high d demo fs ms oF oM (oF.length - 2) _ _ (by omega)).1]
    rw [getN_replicate]
    omega
  · rw [getN_addAt_eq _ _ _ (by rw [length_addAt, hlen2]; omega)]
    rw [getN_addAt_eq _ _ _ (by rw [hlen2]; omega)]
    rw [(survFold_getN_high d demo fs ms oF oM (oF.length - 2) _ _ (by omega)).2]
    rw [getN_replicate]
    omega

/- ------------------------------------------------------------------ -/
/- The reproduction fold in demographic-noise (Poisson) mode.         -/
/- ------------------------------------------------------------------ -/

theorem reproFold_shift {σ : Type} (d : Dist σ) (demo : Bool)
    (ff : List ℚ) (nf : List ℕ) :
    ∀ (l : List ℕ) (b : ℕ) (st : σ),
      (l.foldl (reproIter d demo ff nf) (b, st)).1 =
        b + (l.foldl (reproIter d demo ff nf) (0, st)).1 ∧
      (l.foldl (reproIter d demo ff nf) (b, st)).2 =
        (l.foldl (reproIter d demo ff nf) (0, st)).2
  | [], b, st => ⟨by simp, rfl⟩
  | i :: t, b, st => by
    cases demo with
    | false =>
      simp only [List.foldl_cons, reproIter]
      obtain ⟨ha1, ha2⟩ := reproFold_shift d false ff nf t
        (b + detCount (getN nf i) (ff.getD i 0)) st
      obtain ⟨hb1, hb2⟩ := reproFold_shift d false ff nf t
        (0 + detCount (getN nf i) (ff.getD i 0)) st
      exact ⟨by rw [ha1, hb1]; omega, by rw [ha2, hb2]⟩
    | true =>
      simp only [List.foldl_cons, reproIter]
      obtain ⟨ha1, ha2⟩ := reproFold_shift d true ff nf t
        (b + (d.poisson st ((getN nf i : ℚ) * ff.getD i 0)).1)
        (d.poisson st ((getN nf i : ℚ) * ff.getD i 0)).2
      obtain ⟨hb1, hb2⟩ := reproFold_shift d true ff nf t
        (0 + (d.poisson st ((getN nf i : ℚ) * ff.getD i 0)).1)
        (d.poisson st ((getN nf i : ℚ) * ff.getD i 0)).2
      exact ⟨by rw [ha1, hb1]; omega, by rw [ha2, hb2]⟩

theorem reproStep_empty {σ : Type} (d : Dist σ) (demo : Bool) (ff : List ℚ)
    (ra A : ℕ) (nf : List ℕ) (st : σ) (h : A ≤ ra) :
    reproStep d demo ff ra A nf st = (0, st) := by
  unfold reproStep
  rw [Nat.sub_eq_zero_of_le h]
  rfl

theorem reproStep_poisson_unfold {σ : Type} (d : Dist σ) (ff : List ℚ)
    (ra A : ℕ) (nf : List ℕ) (st : σ) (h : ra < A) :
    (reproStep d true ff ra A nf st).1 =
      (d.poisson st ((getN nf ra : ℚ) * ff.getD ra 0)).1 +
      (reproStep d true ff (ra + 1) A nf
        (d.poisson st ((getN nf ra : ℚ) * ff.getD ra 0)).2).1 := by
  unfold reproStep
  rw [show A - ra = (A - (ra + 1)) + 1 from by omega, List.range'_succ]
  simp only [List.foldl_cons, reproIter]
  obtain ⟨h1, _⟩ := reproFold_shift d true ff nf
    (List.range' (ra + 1) (A - (ra + 1)))
    (0 + (d.poisson st ((getN nf ra : ℚ) * ff.getD ra 0)).1)
    (d.poisson st ((getN nf ra : ℚ) * ff.getD ra 0)).2
  rw [h1]
  omega

/- ------------------------------------------------------------------ -/
/- Deterministic carrying-capacity bound.                             -/
/- ------------------------------------------------------------------ -/

theorem toNat_floor_mul_div (c K T : ℕ) :
    (⌊(c : ℚ) * ((K : ℚ) / (T : ℚ))⌋).toNat = c * K / T := by
  rw [Int.floor_toNat, ← mul_div_assoc,
    show ((c : ℚ) * (K : ℚ)) = (((c * K : ℕ)) : ℚ) by push_cast; ring,
    Nat.floor_div_eq_div]

theorem nat_div_add_div_le (a b T : ℕ) : a / T + b / T ≤ (a + b) / T := by
  rcases Nat.eq_zero_or_pos T with h | h
  · subst h; simp
  · rw [Nat.le_div_iff_mul_le h, Nat.add_mul]
    exact Nat.add_le_add (Nat.div_mul_le_self a T) (Nat.div_mul_le_self b T)

theorem map_div_sum_le (K T : ℕ) :
    ∀ (l : List ℕ), (l.map (fun c => c * K / T)).sum ≤ l.sum * K / T
  | [] => by simp
  | c :: t => by
    simp only [List.map_cons, List.sum_cons]
    calc c * K / T + (t.map (fun c => c * K / T)).sum
        ≤ c * K / T + t.sum * K / T :=
          Nat.add_le_add_left (map_div_sum_le K T t) _
      _ ≤ (c * K + t.sum * K) / T := nat_div_add_div_le _ _ _
      _ = (c + t.sum) * K / T := by ring_nf

theorem capacity_det_le {σ : Type} (d : Dist σ) (nf nm : List ℕ) (st : σ) (K : ℕ) :
    ((capacityStep d false (some K) nf nm st).1).sum +
      ((capacityStep d false (some K) nf nm st).2.1).sum ≤ K := by
  simp only [capacityStep]
  by_cases h : K < nf.sum + nm.sum ∧ 0 < nf.sum + nm.sum
  · rw [if_pos h]
    have hmap : ∀ (l : List ℕ),
        (l.map (fun (c : ℕ) => (⌊(c : ℚ) * ((K : ℚ) / ((nf.sum + nm.sum : ℕ) : ℚ))⌋).toNat)).sum =
          (l.map (fun c => c * K / (nf.sum + nm.sum))).sum := by
      intro l
      congr 1
      exact List.map_congr_left (fun c _ => toNat_floor_mul_div c K (nf.sum + nm.sum))
    have hT : (0 : ℕ) < nf.sum + nm.sum := h.2
    calc ((nf.map (fun (c : ℕ) => (⌊(c : ℚ) * ((K : ℚ) / ((nf.sum + nm.sum : ℕ) : ℚ))⌋).toNat)).sum +
            (nm.map (fun (c : ℕ) => (⌊(c : ℚ) * ((K : ℚ) / ((nf.sum + nm.sum : ℕ) : ℚ))⌋).toNat)).sum)
        = (nf.map (fun c => c * K / (nf.sum + nm.sum))).sum +
            (nm.map (fun c => c * K / (nf.sum + nm.sum))).sum := by rw [hmap, hmap]
      _ ≤ nf.sum * K / (nf.sum + nm.sum) + nm.sum * K / (nf.sum + nm.sum) :=
          Nat.add_le_add (map_div_sum_le _ _ _) (map_div_sum_le _ _ _)
      _ ≤ (nf.sum * K + nm.sum * K) / (nf.sum + nm.sum) := nat_div_add_div_le _ _ _
      _ = (nf.sum + nm.sum) * K / (nf.sum + nm.sum) := by ring_nf
      _ = K := Nat.mul_div_cancel_left K hT
  · rw [if_neg h]
    simp only
    omega

/- ------------------------------------------------------------------ -/
/- Structure of one replicate's generation loop.                      -/
/- ------------------------------------------------------------------ -/

theorem simLoop_spec {σ : Type} (d : Dist σ) (P : SimParams) :
    ∀ (rem gen : ℕ) (pop : Population) (st : σ),
      ((simLoop d P rem gen pop st).2 = none ∧
        (simLoop d P rem gen pop st).1.length = rem ∧
        (∀ j, j < rem → ¬ (rowAt (simLoop d P rem gen pop st).1 j).total ≤ P.q_threshold)) ∨
      (∃ g, (simLoop d P rem gen pop st).2 = some g ∧
        (simLoop d P rem gen pop st).1.length = g + 1 - gen ∧ gen ≤ g ∧ g < gen + rem ∧
        (∀ j, j + 1 < (simLoop d P rem gen pop st).1.length →
          ¬ (rowAt (simLoop d P rem gen pop st).1 j).total ≤ P.q_threshold)) := by
  intro rem
  induction rem with
  | zero =>
    intro gen pop st
    exact Or.inl ⟨rfl, rfl, fun j h => absurd h (by omega)⟩
  | succ rem ih =>
    intro gen pop st
    simp only [simLoop]
    by_cases hx : (advance_generation d st pop P.vital_rates P.catastrophe
        P.demo_noise P.env_noise).1.is_extinct P.q_threshold
    · rw [if_pos hx]
      refine Or.inr ⟨gen, rfl, by simp, le_refl gen, by omega, ?_⟩
      intro j hj
      simp at hj
    · rw [if_neg hx]
      rcases ih (gen + 1)
        (advance_generation d st pop P.vital_rates P.catastrophe
          P.demo_noise P.env_noise).1
        (advance_generation d st pop P.vital_rates P.catastrophe
          P.demo_noise P.env_noise).2 with
        ⟨hn, hlen, hrows⟩ | ⟨g, hg, hlen, hge, hlt, hrows⟩
      · refine Or.inl ⟨hn, by simp [hlen], ?_⟩
        intro j hj
        cases j with
        | zero =>
          simpa [rowAt, mkRow, Population.is_extinct] using hx
        | succ j =>
          rw [rowAt_cons_pos _ _ _ (by omega)]
          exact hrows j (by omega)
      · refine Or.inr ⟨g, hg, ?_, by omega, by omega, ?_⟩
        · simp only [List.length_cons, hlen]
          omega
        · intro j hj
          cases j with
          | zero =>
            simpa [rowAt, mkRow, Population.is_extinct] using hx
          | succ j =>
            rw [rowAt_cons_pos _ _ _ (by omega)]
            refine hrows j ?_
            simp only [List.length_cons] at hj
            omega

theorem simLoop_first {σ : Type} (d : Dist σ) (P : SimParams)
    (rem gen : ℕ) (pop : Population) (st : σ) (h : 0 < rem) :
    0 < (simLoop d P rem gen pop st).1.length ∧
    rowAt (simLoop d P rem gen pop st).1 0 =
      mkRow gen (advance_generation d st pop P.vital_rates P.catastrophe
        P.demo_noise P.env_noise).1 := by
  cases rem with
  | zero => omega
  | succ rem =>
    simp only [simLoop]
    by_cases hx : (advance_generation d st pop P.vital_rates P.catastrophe
        P.demo_noise P.env_noise).1.is_extinct P.q_threshold
    · rw [if_pos hx]
      exact ⟨by simp, rfl⟩
    · rw [if_neg hx]
      exact ⟨by simp, rfl⟩

theorem runReplicate_eq_none {σ : Type} (d : Dist σ) (P : SimParams) (sv : ℕ)
    (he : (simLoop d P P.n_generations 1 (initPop P) (d.seedFn sv)).2 = none) :
    runReplicate d P sv =
      (mkRow 0 (initPop P) :: (simLoop d P P.n_generations 1 (initPop P) (d.seedFn sv)).1,
       none) := by
  simp only [runReplicate, he]

theorem runReplicate_eq_some {σ : Type} (d : Dist σ) (P : SimParams) (sv g : ℕ)
    (he : (simLoop d P P.n_generations 1 (initPop P) (d.seedFn sv)).2 = some g)
    (hg : g ≤ P.n_generations) :
    runReplicate d P sv =
      (mkRow 0 (initPop P) ::
        ((simLoop d P P.n_generations 1 (initPop P) (d.seedFn sv)).1 ++
          padRows g P.n_generations),
       some g) := by
  simp only [runReplicate, he]
  by_cases hlt : g < P.n_generations
  · rw [if_pos hlt]
    rfl
  · rw [if_neg hlt]
    have hpad : padRows g P.n_generations = [] := by
      unfold padRows
      rw [Nat.sub_eq_zero_of_le (by omega)]
      rfl
    rw [hpad, List.append_nil]

theorem replicate_traj_spec {σ : Type} (d : Dist σ) (P : SimParams) (sv : ℕ) :
    (runReplicate d P sv).1.length = P.n_generations + 1 ∧
    (∀ g, 1 ≤ g → (rowAt (runReplicate d P sv).1 g).total ≤ P.q_threshold →
      ∀ g2, g < g2 → g2 ≤ P.n_generations →
        rowAt (runReplicate d P sv).1 g2 = ⟨g2, 0, 0, 0⟩) := by
  rcases simLoop_spec d P P.n_generations 1 (initPop P) (d.seedFn sv) with
    ⟨hn, hlen, hrows⟩ | ⟨g0, hg0, hlen, hge, hlt, hrows⟩
  · rw [runReplicate_eq_none d P sv hn]
    constructor
    · simp [hlen]
    · intro g hg1 hq g2 hgg2 hg2n
      rw [rowAt_cons_pos _ _ _ hg1] at hq
      rcases Nat.lt_or_ge (g - 1) P.n_generations with hc | hc
      · exact absurd hq (by rw [← hlen] at hc; exact hrows (g - 1) (by omega))
      · omega
  · have hg0n : g0 ≤ P.n_generations := by omega
    rw [runReplicate_eq_some d P sv g0 hg0 hg0n]
    have hL : (simLoop d P P.n_generations 1 (initPop P) (d.seedFn sv)).1.length = g0 := by
      omega
    constructor
    · simp [hL, padRows_length]
      omega
    · intro g hg1 hq g2 hgg2 hg2n
      have hgg0 : g0 ≤ g := by
        by_contra hcon
        rw [rowAt_cons_pos _ _ _ hg1] at hq
        unfold rowAt at hq
        rw [getD_append_lt _ _ _ _ (by rw [hL]; omega)] at hq
        exact hrows (g - 1) (by rw [hL]; omega) hq
      rw [rowAt_cons_pos _ _ _ (by omega)]
      unfold rowAt
      rw [getD_append_ge _ _ _ _ (by rw [hL]; omega), hL]
      rw [show (padRows g0 P.n_generations).getD (g2 - 1 - g0) ⟨0, 0, 0, 0⟩ =
          (⟨g0 + 1 + (g2 - 1 - g0), 0, 0, 0⟩ : Row) from
            rowAt_padRows _ _ _ (by omega)]
      have harith : g0 + 1 + (g2 - 1 - g0) = g2 := by omega
      rw [harith]

/- ------------------------------------------------------------------ -/
/- Claims.                                                            -/
/- ------------------------------------------------------------------ -/

/-- C1 (counterexample): in stochastic mode (demo_noise = true) the
carrying-capacity rescaling samples `Binomial(count, K/total)` per
class independently, and the binomial can come out at its maximum, so
the post-transition total can exceed the configured capacity: with
counts [0,2]/[0,0], survival 1, capacity K = 1, a run of draws in
which every binomial attains its maximum (a legal outcome, as
`maxDist.Valid` records) leaves total 2 > 1. The claim's "the
resulting total never exceeds K" is false in stochastic mode. -/
theorem capacity_stochastic_exceeds_cex :
    maxDist.Valid ∧
    (advance_generation maxDist () ⟨[0, 2], [0, 0], some 1, 1, 1/2⟩
      ⟨[1, 1], [1, 1], [0, 0], [0, 0], 0, 0⟩ none true true).1.carrying_capacity = some 1 ∧
    (advance_generation maxDist () ⟨[0, 2], [0, 0], some 1, 1, 1/2⟩
      ⟨[1, 1], [1, 1], [0, 0], [0, 0], 0, 0⟩ none true true).1.total_population = 2 ∧
    ¬ (advance_generation maxDist () ⟨[0, 2], [0, 0], some 1, 1, 1/2⟩
      ⟨[1, 1], [1, 1], [0, 0], [0, 0], 0, 0⟩ none true true).1.total_population ≤ 1 :=
  ⟨⟨fun _ n _ => le_refl n, fun _ => by norm_num [maxDist]⟩,
   by decide, by decide, by decide⟩

/-- C1 (amended): with demographic noise disabled the carrying-capacity
step truncates `count * K/total` per class, and the resulting total
never exceeds the configured capacity K, whatever the environmental
noise, catastrophe configuration and generator state. In stochastic
mode the bound fails (see the counterexample); only the deterministic
half of the claim holds. -/
theorem capacity_deterministic_bound {σ : Type} (d : Dist σ) (st : σ)
    (pop : Population) (vr : VitalRates) (cat : Option Catastrophe)
    (env : Bool) (K : ℕ) (hK : pop.carrying_capacity = some K) :
    (advance_generation d st pop vr cat false env).1.total_population ≤ K := by
  simp only [advance_generation, Population.total_population, hK]
  exact capacity_det_le d _ _ _ K

/-- Witness for C1: a concrete deterministic advance under capacity 50
starting from 60 + 60 individuals lands at or below 50. -/
theorem capacity_deterministic_bound_wit :
    (⟨[30, 30], [30, 30], some 50, 1, 1/2⟩ : Population).carrying_capacity = some 50 ∧
    (advance_generation unitDist () ⟨[30, 30], [30, 30], some 50, 1, 1/2⟩
      ⟨[1, 1], [1, 1], [0, 0], [0, 0], 0, 0⟩ none false false).1.total_population ≤ 50 :=
  ⟨rfl, capacity_deterministic_bound unitDist () _ _ none false 50 rfl⟩

/-- C2 (code bug): for A ≥ 2 the last age class is absorbing in both
noise modes — class A-1 of the `survStep` output receives exactly the
survivor draw of class A-2 (aged in) plus the survivor draw of class
A-1 (the plus-group), each taken by the algorithm's own sampling
sequence, and the full `advance_generation` (no catastrophe, no
capacity) leaves that cell untouched through reproduction. But with a
single age class (A = 1) the newborn assignment
`new_f[0] = n_female_births` overwrites the plus-group survivors: at
the repository's own `test_carrying_capacity_deterministic` input
(female = [50], male = [50], survival 1, fertility 0, capacity 50,
noise off) the code returns total 0 where the test asserts 50 — the
50 deterministic survivors (`detCount 50 1 = 50`) are computed and
then discarded, so the claim's "A ≥ 1" fails on the code at A = 1. -/
theorem plus_group_survivors :
    (∀ (σ : Type) (d : Dist σ) (demo : Bool) (fs ms : List ℚ)
       (oF oM : List ℕ) (st : σ), 2 ≤ oF.length → oM.length = oF.length →
      getN (survStep d demo fs ms oF oM st).1 (oF.length - 1) =
        (survDraw d demo fs oF (oF.length - 2)
          ((List.range (oF.length - 2)).foldl (survIter d demo fs ms oF oM)
            (List.replicate oF.length 0, List.replicate oM.length 0, st)).2.2).1 +
        (survDraw d demo fs oF (oF.length - 1)
          ((List.range (oF.length - 1)).foldl (survIter d demo fs ms oF oM)
            (List.replicate oF.length 0, List.replicate oM.length 0, st)).2.2).1 ∧
      getN (survStep d demo fs ms oF oM st).2.1 (oF.length - 1) =
        (survDraw d demo ms oM (oF.length - 2)
          (survDraw d demo fs oF (oF.length - 2)
            ((List.range (oF.length - 2)).foldl (survIter d demo fs ms oF oM)
              (List.replicate oF.length 0, List.replicate oM.length 0, st)).2.2).2).1 +
        (survDraw d demo ms oM (oF.length - 1)
          (survDraw d demo fs oF (oF.length - 1)
            ((List.range (oF.length - 1)).foldl (survIter d demo fs ms oF oM)
              (List.replicate oF.length 0, List.replicate oM.length 0, st)).2.2).2).1) ∧
    (∀ (σ : Type) (d : Dist σ) (st : σ) (demo env : Bool) (oF oM : List ℕ)
       (ra : ℕ) (mbp : ℚ) (vr : VitalRates), 2 ≤ oF.length →
      getN (advance_generation d st ⟨oF, oM, none, ra, mbp⟩ vr none demo env).1.female
          (oF.length - 1) =
        getN (survStep d demo
          (match env with
           | true => applyEnvNoise d vr st
           | false => ((vr.female_survival, vr.male_survival,
                        vr.female_fertility, vr.male_fertility), st)).1.1
          (match env with
           | true => applyEnvNoise d vr st
           | false => ((vr.female_survival, vr.male_survival,
                        vr.female_fertility, vr.male_fertility), st)).1.2.1
          oF oM
          (match env with
           | true => applyEnvNoise d vr st
           | false => ((vr.female_survival, vr.male_survival,
                        vr.female_fertility, vr.male_fertility), st)).2).1
          (oF.length - 1) ∧
      getN (advance_generation d st ⟨oF, oM, none, ra, mbp⟩ vr none demo env).1.male
          (oF.length - 1) =
        getN (survStep d demo
          (match env with
           | true => applyEnvNoise d vr st
           | false => ((vr.female_survival, vr.male_survival,
                        vr.female_fertility, vr.male_fertility), st)).1.1
          (match env with
           | true => applyEnvNoise d vr st
           | false => ((vr.female_survival, vr.male_survival,
                        vr.female_fertility, vr.male_fertility), st)).1.2.1
          oF oM
          (match env with
           | true => applyEnvNoise d vr st
           | false => ((vr.female_survival, vr.male_survival,
                        vr.female_fertility, vr.male_fertility), st)).2).2.1
          (oF.length - 1)) ∧
    (advance_generation unitDist () ⟨[50], [50], some 50, 1, 1/2⟩
      ⟨[1], [1], [0], [0], 0, 0⟩ none false false).1.female = [0] ∧
    (advance_generation unitDist () ⟨[50], [50], some 50, 1, 1/2⟩
      ⟨[1], [1], [0], [0], 0, 0⟩ none false false).1.total_population = 0 ∧
    detCount 50 1 = 50 := by
  refine ⟨fun σ d demo fs ms oF oM st hA hm =>
      survStep_plus_group d demo fs ms oF oM st hA hm,
    ?_,
    by with_unfolding_all decide, by with_unfolding_all decide,
    by with_unfolding_all decide⟩
  intro σ d st demo env oF oM ra mbp vr hA
  constructor
  · simp only [advance_generation]
    exact getN_setAt_ne _ _ _ _ (by omega)
  · simp only [advance_generation]
    exact getN_setAt_ne _ _ _ _ (by omega)

/-- Witness for C2: the general plus-group equation instantiated in
demographic-noise mode at a concrete two-class population, with the
two survivor draws evaluated (3 aged in from class 0 plus 4 retained
in class 1). -/
theorem plus_group_survivors_wit :
    2 ≤ ([3, 4] : List ℕ).length ∧ ([5, 6] : List ℕ).length = ([3, 4] : List ℕ).length ∧
    getN (survStep cexDist true [1/3, 2/3] [1/4, 3/4] [3, 4] [5, 6] 0).1 1 = 3 + 4 := by
  refine ⟨by decide, by decide, ?_⟩
  have h := (plus_group_survivors.1 ℕ cexDist true [1/3, 2/3] [1/4, 3/4]
    [3, 4] [5, 6] 0 (by decide) (by decide)).1
  have h2 : getN (survStep cexDist true [1/3, 2/3] [1/4, 3/4] [3, 4] [5, 6] 0).1 1 =
      (survDraw cexDist true [1/3, 2/3] [3, 4] 0
        ((List.range 0).foldl (survIter cexDist true [1/3, 2/3] [1/4, 3/4] [3, 4] [5, 6])
          (List.replicate 2 0, List.replicate 2 0, 0)).2.2).1 +
      (survDraw cexDist true [1/3, 2/3] [3, 4] 1
        ((List.range 1).foldl (survIter cexDist true [1/3, 2/3] [1/4, 3/4] [3, 4] [5, 6])
          (List.replicate 2 0, List.replicate 2 0, 0)).2.2).1 := h
  rw [h2]
  with_unfolding_all decide

/-- C3: reproduction reads the post-survival female counts, in both
modes. Deterministic mode: the new female array is the `survStep`
survivor array with index 0 set to the female share of
`Σ_{i ≥ reproduction_age} round(new_female[i] * fertility[i])`, the
male array receives `round(births * male_birth_prop)` male newborns.
Demographic-noise mode: `advance_generation` hands the `survStep`
output to the reproduction step, whose total births unfold, class by
class from `reproduction_age` up, as a `Poisson(new_female[i] *
fertility[i])` draw — mean taken from the post-survival array — plus
the births of the remaining classes at the advanced generator state.
Concretely: the spec's example (fertility 2.0 at class 1, survival
1.0, female = male = [0,10], noise off) yields female = male =
[10, 10]; and in demographic-noise mode with female = [10, 3] and
draws at binomial max / Poisson mean, births are 26 = (10 + 3) × 2 —
read from the post-survival class-1 count 13, not the pre-transition
count 3. -/
theorem reproduction_post_survival :
    (∀ (σ : Type) (d : Dist σ) (st : σ) (f m : List ℕ) (ra : ℕ) (mbp : ℚ)
       (vr : VitalRates),
      (advance_generation d st ⟨f, m, none, ra, mbp⟩ vr none false false).1.female =
        setAt (survStep d false vr.female_survival vr.male_survival f m st).1 0
          (((List.range' ra (f.length - ra)).map (fun i =>
              detCount
                (getN (survStep d false vr.female_survival vr.male_survival f m st).1 i)
                (vr.female_fertility.getD i 0))).sum -
           detCount
             (((List.range' ra (f.length - ra)).map (fun i =>
                detCount
                  (getN (survStep d false vr.female_survival vr.male_survival f m st).1 i)
                  (vr.female_fertility.getD i 0))).sum) mbp) ∧
      (advance_generation d st ⟨f, m, none, ra, mbp⟩ vr none false false).1.male =
        setAt (survStep d false vr.female_survival vr.male_survival f m st).2.1 0
          (detCount
            (((List.range' ra (f.length - ra)).map (fun i =>
               detCount
                 (getN (survStep d false vr.female_survival vr.male_survival f m st).1 i)
                 (vr.female_fertility.getD i 0))).sum) mbp)) ∧
    (∀ (σ : Type) (d : Dist σ) (st : σ) (f m : List ℕ) (ra : ℕ) (mbp : ℚ)
       (vr : VitalRates) (env : Bool),
      let R := match env with
        | true => applyEnvNoise d vr st
        | false => ((vr.female_survival, vr.male_survival,
                     vr.female_fertility, vr.male_fertility), st)
      let SV := survStep d true R.1.1 R.1.2.1 f m R.2
      let RB := reproStep d true R.1.2.2.1 ra f.length SV.1 SV.2.2
      let SX := sexSplit d true RB.1 mbp RB.2
      (advance_generation d st ⟨f, m, none, ra, mbp⟩ vr none true env).1.female =
        setAt SV.1 0 SX.1 ∧
      (advance_generation d st ⟨f, m, none, ra, mbp⟩ vr none true env).1.male =
        setAt SV.2.1 0 SX.2.1) ∧
    (∀ (σ : Type) (d : Dist σ) (ff : List ℚ) (ra A : ℕ) (nf : List ℕ) (st : σ),
      (A ≤ ra → reproStep d true ff ra A nf st = (0, st)) ∧
      (ra < A → (reproStep d true ff ra A nf st).1 =
        (d.poisson st ((getN nf ra : ℚ) * ff.getD ra 0)).1 +
        (reproStep d true ff (ra + 1) A nf
          (d.poisson st ((getN nf ra : ℚ) * ff.getD ra 0)).2).1)) ∧
    (advance_generation unitDist () ⟨[0, 10], [0, 10], none, 1, 1/2⟩
      ⟨[1, 1], [1, 1], [0, 2], [0, 2], 0, 0⟩ none false false).1.female = [10, 10] ∧
    (advance_generation unitDist () ⟨[0, 10], [0, 10], none, 1, 1/2⟩
      ⟨[1, 1], [1, 1], [0, 2], [0, 2], 0, 0⟩ none false false).1.male = [10, 10] ∧
    (advance_generation meanDist () ⟨[10, 3], [0, 0], none, 1, 1/2⟩
      ⟨[1, 1], [1, 1], [0, 2], [0, 2], 0, 0⟩ none true false).1.female = [0, 13] ∧
    (advance_generation meanDist () ⟨[10, 3], [0, 0], none, 1, 1/2⟩
      ⟨[1, 1], [1, 1], [0, 2], [0, 2], 0, 0⟩ none true false).1.male = [26, 0] := by
  refine ⟨?_, ?_, ?_,
    by with_unfolding_all decide, by with_unfolding_all decide,
    by with_unfolding_all decide, by with_unfolding_all decide⟩
  · intro σ d st f m ra mbp vr
    simp only [advance_generation, reproStep_det, sexSplit_det]
    exact ⟨rfl, rfl⟩
  · intro σ d st f m ra mbp vr env
    exact ⟨rfl, rfl⟩
  · intro σ d ff ra A nf st
    exact ⟨fun h => reproStep_empty d true ff ra A nf st h,
           fun h => reproStep_poisson_unfold d ff ra A nf st h⟩

/-- Witness for C3: the Poisson-mode unfolding of the reproduction
step at a concrete post-survival array (one reproductive class, mean
13 × 2). -/
theorem reproduction_post_survival_wit :
    (1 : ℕ) < 2 ∧
    (reproStep meanDist true [0, 2] 1 2 [0, 13] ()).1 =
      (meanDist.poisson () ((getN [0, 13] 1 : ℚ) * ([0, 2] : List ℚ).getD 1 0)).1 +
      (reproStep meanDist true [0, 2] 2 2 [0, 13]
        (meanDist.poisson () ((getN [0, 13] 1 : ℚ) * ([0, 2] : List ℚ).getD 1 0)).2).1 :=
  ⟨by decide,
   (reproduction_post_survival.2.2.1 Unit meanDist [0, 2] 1 2 [0, 13] ()).2 (by decide)⟩

theorem cexDist_valid : cexDist.Valid := by
  refine ⟨fun _ n _ => le_refl n, fun st => ?_⟩
  by_cases h : st = 0 <;> simp [cexDist, h] <;> norm_num

/-- C4 (counterexample): even with both noise flags off,
`Catastrophe.occurs` consumes `np.random.random()` on every call, so
with a catastrophe of probability 1/2 configured, `advance_generation`
is not a pure function of the population state: from the same
population, a first invocation (uniform draw 1/4 < 1/2, so the
catastrophe fires) returns female = [0, 5], while the immediately
following invocation (uniform draw 3/4, no fire) returns
female = [0, 10]. `cexDist.Valid` records that both draws are legal
`np.random.random()` outcomes. -/
theorem det_advance_catastrophe_cex :
    cexDist.Valid ∧
    (advance_generation cexDist 0 ⟨[0, 10], [0, 0], none, 1, 1/2⟩
      ⟨[1, 1], [1, 1], [0, 0], [0, 0], 0, 0⟩ (some ⟨1/2, 1/2⟩) false false).2 = 1 ∧
    (advance_generation cexDist 0 ⟨[0, 10], [0, 0], none, 1, 1/2⟩
      ⟨[1, 1], [1, 1], [0, 0], [0, 0], 0, 0⟩ (some ⟨1/2, 1/2⟩) false false).1.female = [0, 5] ∧
    (advance_generation cexDist 1 ⟨[0, 10], [0, 0], none, 1, 1/2⟩
      ⟨[1, 1], [1, 1], [0, 0], [0, 0], 0, 0⟩ (some ⟨1/2, 1/2⟩) false false).1.female = [0, 10] ∧
    (advance_generation cexDist 0 ⟨[0, 10], [0, 0], none, 1, 1/2⟩
      ⟨[1, 1], [1, 1], [0, 0], [0, 0], 0, 0⟩ (some ⟨1/2, 1/2⟩) false false).1 ≠
    (advance_generation cexDist 1 ⟨[0, 10], [0, 0], none, 1, 1/2⟩
      ⟨[1, 1], [1, 1], [0, 0], [0, 0], 0, 0⟩ (some ⟨1/2, 1/2⟩) false false).1 :=
  ⟨cexDist_valid, by with_unfolding_all decide, by with_unfolding_all decide,
   by with_unfolding_all decide, by with_unfolding_all decide⟩

/-- C4 (amended): with both noise flags off, `advance_generation` is
independent of the generator state — hence a pure function of counts
and rates — provided the configured catastrophe cannot consume a
decision-relevant random draw: none is configured, or its probability
is ≤ 0 (never fires, as `np.random.random() ≥ 0`) or ≥ 1 (always
fires, as `np.random.random() < 1`). With a catastrophe probability
strictly between 0 and 1 the claim fails (see the counterexample). -/
theorem det_advance_state_independent {σ : Type} (d : Dist σ) (hv : d.Valid)
    (st1 st2 : σ) (pop : Population) (vr : VitalRates) (cat : Option Catastrophe)
    (hcat : cat = none ∨ ∃ c, cat = some c ∧ (c.probability ≤ 0 ∨ 1 ≤ c.probability)) :
    (advance_generation d st1 pop vr cat false false).1 =
    (advance_generation d st2 pop vr cat false false).1 := by
  obtain ⟨hsv1, hsv2⟩ := survStep_det_congr d vr.female_survival vr.male_survival
    pop.female pop.male st1 st2
  rcases hcat with rfl | ⟨c, rfl, hc⟩
  · simp only [advance_generation, survStep_det_state, reproStep_det, sexSplit_det]
    rw [hsv1, hsv2]
    rw [(capacityStep_det_parts d pop.carrying_capacity _ _ st1 st2).1,
      (capacityStep_det_parts d pop.carrying_capacity _ _ st1 st2).2]
  · simp only [advance_generation, survStep_det_state, reproStep_det, sexSplit_det,
      Catastrophe.apply]
    rw [hsv1, hsv2]
    rcases hc with hc | hc
    · have hno1 : ¬ ((d.uniform st1).1 < c.probability) := fun hlt =>
        absurd (lt_of_lt_of_le hlt hc) (not_lt.mpr (hv.2 st1).1)
      have hno2 : ¬ ((d.uniform st2).1 < c.probability) := fun hlt =>
        absurd (lt_of_lt_of_le hlt hc) (not_lt.mpr (hv.2 st2).1)
      rw [if_neg hno1, if_neg hno2]
      rw [(capacityStep_det_parts d pop.carrying_capacity _ _
          (d.uniform st1).2 (d.uniform st2).2).1,
        (capacityStep_det_parts d pop.carrying_capacity _ _
          (d.uniform st1).2 (d.uniform st2).2).2]
    · have hy1 : (d.uniform st1).1 < c.probability := lt_of_lt_of_le (hv.2 st1).2 hc
      have hy2 : (d.uniform st2).1 < c.probability := lt_of_lt_of_le (hv.2 st2).2 hc
      rw [if_pos hy1, if_pos hy2]
      obtain ⟨ht1, ht2, _⟩ := thinLists_det_parts d (1 - c.mortality_rate)
        (setAt (survStep d false vr.female_survival vr.male_survival
          pop.female pop.male st2).1 0 _)
        (setAt (survStep d false vr.female_survival vr.male_survival
          pop.female pop.male st2).2.1 0 _)
        (d.uniform st1).2 (d.uniform st2).2
      rw [ht1, ht2]
      rw [(capacityStep_det_parts d pop.carrying_capacity _ _
          (thinLists d false (1 - c.mortality_rate) _ _ (d.uniform st1).2).2.2
          (thinLists d false (1 - c.mortality_rate) _ _ (d.uniform st2).2).2.2).1,
        (capacityStep_det_parts d pop.carrying_capacity _ _
          (thinLists d false (1 - c.mortality_rate) _ _ (d.uniform st1).2).2.2
          (thinLists d false (1 - c.mortality_rate) _ _ (d.uniform st2).2).2.2).2]

/-- Witness for C4: the amended theorem at a concrete population with
no catastrophe, applied at two different generator states. -/
theorem det_advance_state_independent_wit :
    cexDist.Valid ∧
    (advance_generation cexDist 0 ⟨[3, 4], [2, 1], none, 1, 1/2⟩
      ⟨[1, 1], [1, 1], [0, 2], [0, 2], 0, 0⟩ none false false).1 =
    (advance_generation cexDist 5 ⟨[3, 4], [2, 1], none, 1, 1/2⟩
      ⟨[1, 1], [1, 1], [0, 2], [0, 2], 0, 0⟩ none false false).1 :=
  ⟨cexDist_valid,
   det_advance_state_independent cexDist cexDist_valid 0 5 _ _ none (Or.inl rfl)⟩

/-- C5 (counterexample): the extinction check runs only after a
transition, so a replicate whose generation-0 total is already at or
below the threshold is not zero-filled: with initial [0,2]/[0,0],
q_threshold 5, fertility 10 at class 1 and survival 1 (noise off,
1 generation), generation 0 records total 2 ≤ 5, yet the generation-1
row is ⟨1, 12, 10, 22⟩, not a zero row, falsifying the claim at g = 0. -/
theorem gen0_threshold_rows_cex :
    (rowAt ((runSim unitDist ()
        ⟨⟨[1, 1], [1, 1], [0, 10], [0, 10], 0, 0⟩, [0, 2], [0, 0],
          none, none, 1, 5, 1, false, false⟩ (some 0)).trajectories.getD 0 []) 0).total ≤ 5 ∧
    rowAt ((runSim unitDist ()
        ⟨⟨[1, 1], [1, 1], [0, 10], [0, 10], 0, 0⟩, [0, 2], [0, 0],
          none, none, 1, 5, 1, false, false⟩ (some 0)).trajectories.getD 0 []) 1 =
      ⟨1, 12, 10, 22⟩ ∧
    (⟨1, 12, 10, 22⟩ : Row) ≠ ⟨1, 0, 0, 0⟩ :=
  ⟨by with_unfolding_all decide, by with_unfolding_all decide,
   by with_unfolding_all decide⟩

/-- C5 (amended): every recorded trajectory of `Simulation.run` has
exactly n_generations + 1 rows; and whenever a recorded row at a
generation g ≥ 1 has total at or below q_threshold, every later row
through the horizon is the zero row for its generation. Generation 0
is exempt — the quasi-extinction check runs only after each
transition, so a below-threshold initial state does not trigger
zero-filling (see the counterexample). -/
theorem trajectory_length_padding {σ : Type} (d : Dist σ) (st : σ)
    (P : SimParams) (seed : Option ℕ) (t : List Row)
    (ht : t ∈ (runSim d st P seed).trajectories) :
    t.length = P.n_generations + 1 ∧
    ∀ g, 1 ≤ g → (rowAt t g).total ≤ P.q_threshold →
      ∀ g2, g < g2 → g2 ≤ P.n_generations → rowAt t g2 = ⟨g2, 0, 0, 0⟩ := by
  simp only [runSim, List.map_map, List.mem_map, List.mem_range] at ht
  obtain ⟨r, _, hteq⟩ := ht
  simp only [Function.comp] at hteq
  rw [← hteq]
  exact replicate_traj_spec d P _

/-- Witness for C5: the concrete two-row trajectory of a one-replicate
run (one generation, quasi-extinct at generation 1). -/
theorem trajectory_length_padding_wit :
    ([⟨0, 1, 0, 1⟩, ⟨1, 0, 0, 0⟩] : List Row) ∈
      (runSim unitDist () ⟨⟨[1], [1], [0], [0], 0, 0⟩, [1], [0],
        none, none, 1, 0, 1, false, false⟩ (some 0)).trajectories ∧
    (([⟨0, 1, 0, 1⟩, ⟨1, 0, 0, 0⟩] : List Row).length =
      (⟨⟨[1], [1], [0], [0], 0, 0⟩, [1], [0],
        none, none, 1, 0, 1, false, false⟩ : SimParams).n_generations + 1 ∧
     ∀ g, 1 ≤ g →
       (rowAt ([⟨0, 1, 0, 1⟩, ⟨1, 0, 0, 0⟩] : List Row) g).total ≤
         (⟨⟨[1], [1], [0], [0], 0, 0⟩, [1], [0],
           none, none, 1, 0, 1, false, false⟩ : SimParams).q_threshold →
       ∀ g2, g < g2 →
         g2 ≤ (⟨⟨[1], [1], [0], [0], 0, 0⟩, [1], [0],
           none, none, 1, 0, 1, false, false⟩ : SimParams).n_generations →
         rowAt ([⟨0, 1, 0, 1⟩, ⟨1, 0, 0, 0⟩] : List Row) g2 = ⟨g2, 0, 0, 0⟩) :=
  ⟨by with_unfolding_all decide,
   trajectory_length_padding unitDist () _ (some 0) _
     (by with_unfolding_all decide)⟩

/-- C6: with an explicit seed, `Simulation.run` resolves its base seed
to that value and reseeds the generator per replicate, so the whole
result — trajectories, replicate for replicate and row for row, and
the extinction-time list — is independent of the incoming global
generator state: two runs with the same seed and parameters are
identical. -/
theorem run_seed_reproducible {σ : Type} (d : Dist σ) (st1 st2 : σ)
    (P : SimParams) (s : ℕ) :
    runSim d st1 P (some s) = runSim d st2 P (some s) ∧
    (runSim d st1 P (some s)).trajectories = (runSim d st2 P (some s)).trajectories ∧
    (runSim d st1 P (some s)).extinction_times =
      (runSim d st2 P (some s)).extinction_times :=
  ⟨rfl, rfl, rfl⟩

/-- C7: `SimulationResult.summary` reports the replicate count, the
number of finite extinction times, their quotient as the extinction
probability, and mean and median over only the finite times, with the
NaN sentinel (`none`) when there are no replicates or no extinctions;
on extinction times [3, never, 5, never] it reports replicates = 4,
extinct = 2, probability 1/2, mean 4, median 4. -/
theorem summary_statistics_spec :
    SimulationResult.summary ⟨[], [some 3, none, some 5, none], 0⟩ =
      ⟨4, 2, some (1/2), some 4, some 4⟩ ∧
    (∀ res : SimulationResult,
      res.summary.replicates = res.extinction_times.length ∧
      res.summary.extinct = res.extinction_times.countP (fun t => t.isSome) ∧
      res.summary.extinction_probability =
        (if res.extinction_times.length ≠ 0 then
          some ((res.extinction_times.countP (fun t => t.isSome) : ℚ) /
            (res.extinction_times.length : ℚ))
        else none) ∧
      res.summary.mean_time_to_extinction =
        (if res.extinction_times.filterMap id ≠ [] then
          some (meanTimes (res.extinction_times.filterMap id))
        else none) ∧
      res.summary.median_time_to_extinction =
        (if res.extinction_times.filterMap id ≠ [] then
          some (medianTimes (res.extinction_times.filterMap id))
        else none)) ∧
    SimulationResult.summary ⟨[], [], 0⟩ = ⟨0, 0, none, none, none⟩ ∧
    SimulationResult.summary ⟨[], [none, none], 7⟩ = ⟨2, 0, some 0, none, none⟩ :=
  ⟨by with_unfolding_all decide,
   fun _ => ⟨rfl, rfl, rfl, rfl, rfl⟩,
   by with_unfolding_all decide, by with_unfolding_all decide⟩

/-- C8 (code-bug evaluation): `Catastrophe` and `VitalRates` are plain
dataclasses with no validation — their constructors are total
functions that store every field verbatim for all rational inputs, so
a negative probability, a mortality rate above 1, or a negative
environmental standard deviation are all accepted at construction and
the objects are usable: an `advance_generation` call with the invalid
catastrophe runs to completion (the negative probability silently
makes it never fire), and environmental noise with the negative
standard deviation silently takes the no-noise path (the `sd > 0`
guard), returning the baseline rates. The spec requires such
construction to be rejected immediately. -/
theorem constructors_accept_invalid :
    (∀ (p m : ℚ), (Catastrophe.mk p m).probability = p ∧
      (Catastrophe.mk p m).mortality_rate = m) ∧
    (∀ (a b c e : List ℚ) (s1 s2 : ℚ),
      (VitalRates.mk a b c e s1 s2).env_sd_survival = s1 ∧
      (VitalRates.mk a b c e s1 s2).env_sd_fertility = s2) ∧
    (Catastrophe.mk (-(1 : ℚ)/2) 2).probability = -(1 : ℚ)/2 ∧
    (Catastrophe.mk (-(1 : ℚ)/2) 2).mortality_rate = 2 ∧
    (VitalRates.mk [1] [1] [0] [0] (-1) 0).env_sd_survival = -1 ∧
    (advance_generation unitDist () ⟨[5, 5], [5, 5], none, 1, 1/2⟩
      ⟨[1, 1], [1, 1], [0, 0], [0, 0], 0, 0⟩
      (some (Catastrophe.mk (-(1 : ℚ)/2) 2)) false false).1.female = [0, 10] ∧
    applyEnvNoise unitDist (VitalRates.mk [1/2] [1/2] [1] [1] (-1) (-1)) () =
      (([1/2], [1/2], [1], [1]), ()) :=
  ⟨fun _ _ => ⟨rfl, rfl⟩, fun _ _ _ _ _ _ => ⟨rfl, rfl⟩, rfl, rfl, rfl,
   by with_unfolding_all decide, by with_unfolding_all decide⟩

/-- C9: generation 0 is always recorded with the true initial counts,
the quasi-extinction check runs only after a transition (so, with at
least one generation configured, at least one transition is executed
and its result is the recorded generation-1 row), and a recorded
extinction time is always a generation index ≥ 1 — extinction time 0
is impossible even when the initial total is already at or below
q_threshold. -/
theorem gen0_never_extinct {σ : Type} (d : Dist σ) (st : σ) (P : SimParams)
    (seed : Option ℕ) (r : ℕ) (hn : 1 ≤ P.n_generations)
    (hr : r < P.n_replicates) :
    rowAt ((runSim d st P seed).trajectories.getD r []) 0 =
      ⟨0, P.initial_females.sum, P.initial_males.sum,
        P.initial_females.sum + P.initial_males.sum⟩ ∧
    (∀ g, (runSim d st P seed).extinction_times.getD r none = some g → 1 ≤ g) ∧
    rowAt ((runSim d st P seed).trajectories.getD r []) 1 =
      mkRow 1 (advance_generation d
        (d.seedFn ((resolveBase d st seed + r) % (2 ^ 32 - 1)))
        (initPop P) P.vital_rates P.catastrophe P.demo_noise P.env_noise).1 := by
  have hidx : (runSim d st P seed).trajectories.getD r [] =
      (runReplicate d P ((resolveBase d st seed + r) % (2 ^ 32 - 1))).1 := by
    simp only [runSim, List.map_map]
    rw [getD_map_range _ _ _ _ hr]
    rfl
  have hext : (runSim d st P seed).extinction_times.getD r none =
      (runReplicate d P ((resolveBase d st seed + r) % (2 ^ 32 - 1))).2 := by
    simp only [runSim, List.map_map]
    rw [getD_map_range _ _ _ _ hr]
    rfl
  rw [hidx, hext]
  obtain ⟨hpos, hrow⟩ := simLoop_first d P P.n_generations 1 (initPop P)
    (d.seedFn ((resolveBase d st seed + r) % (2 ^ 32 - 1))) (by omega)
  rcases simLoop_spec d P P.n_generations 1 (initPop P)
      (d.seedFn ((resolveBase d st seed + r) % (2 ^ 32 - 1))) with
    ⟨hx, _, _⟩ | ⟨g0, hg0, _, hge, _, _⟩
  · rw [runReplicate_eq_none d P _ hx]
    refine ⟨rfl, by simp, ?_⟩
    rw [rowAt_cons_pos _ _ _ (le_refl 1)]
    exact hrow
  · have hg0n : g0 ≤ P.n_generations := by omega
    rw [runReplicate_eq_some d P _ g0 hg0 hg0n]
    refine ⟨rfl, ?_, ?_⟩
    · intro g hg
      have h2 : g0 = g := by simpa using hg
      omega
    · rw [rowAt_cons_pos _ _ _ (le_refl 1)]
      unfold rowAt
      rw [getD_append_lt _ _ _ _ (by omega)]
      exact hrow

/-- Witness for C9: a concrete one-replicate, one-generation run whose
initial total 1 is already at or below the threshold 5, yet generation
0 is recorded as ⟨0, 1, 0, 1⟩ and the extinction time is ≥ 1. -/
theorem gen0_never_extinct_wit :
    1 ≤ (⟨⟨[1], [1], [0], [0], 0, 0⟩, [1], [0],
      none, none, 1, 5, 1, false, false⟩ : SimParams).n_generations ∧
    0 < (⟨⟨[1], [1], [0], [0], 0, 0⟩, [1], [0],
      none, none, 1, 5, 1, false, false⟩ : SimParams).n_replicates ∧
    (rowAt ((runSim unitDist () ⟨⟨[1], [1], [0], [0], 0, 0⟩, [1], [0],
        none, none, 1, 5, 1, false, false⟩ (some 0)).trajectories.getD 0 []) 0 =
      ⟨0, ([1] : List ℕ).sum, ([0] : List ℕ).sum,
        ([1] : List ℕ).sum + ([0] : List ℕ).sum⟩ ∧
    (∀ g, (runSim unitDist () ⟨⟨[1], [1], [0], [0], 0, 0⟩, [1], [0],
        none, none, 1, 5, 1, false, false⟩ (some 0)).extinction_times.getD 0 none =
        some g → 1 ≤ g) ∧
    rowAt ((runSim unitDist () ⟨⟨[1], [1], [0], [0], 0, 0⟩, [1], [0],
        none, none, 1, 5, 1, false, false⟩ (some 0)).trajectories.getD 0 []) 1 =
      mkRow 1 (advance_generation unitDist
        (unitDist.seedFn ((resolveBase unitDist () (some 0) + 0) % (2 ^ 32 - 1)))
        (initPop ⟨⟨[1], [1], [0], [0], 0, 0⟩, [1], [0],
          none, none, 1, 5, 1, false, false⟩)
        (⟨⟨[1], [1], [0], [0], 0, 0⟩, [1], [0],
          none, none, 1, 5, 1, false, false⟩ : SimParams).vital_rates
        (⟨⟨[1], [1], [0], [0], 0, 0⟩, [1], [0],
          none, none, 1, 5, 1, false, false⟩ : SimParams).catastrophe
        (⟨⟨[1], [1], [0], [0], 0, 0⟩, [1], [0],
          none, none, 1, 5, 1, false, false⟩ : SimParams).demo_noise
        (⟨⟨[1], [1], [0], [0], 0, 0⟩, [1], [0],
          none, none, 1, 5, 1, false, false⟩ : SimParams).env_noise).1) :=
  ⟨by decide, by decide,
   gen0_never_extinct unitDist () _ (some 0) 0 (by decide) (by decide)⟩

/-- C10: each replicate r is seeded with `(base_seed + r) % (2^32 - 1)`,
so any two replicate slots — within one run or across two runs that
agree on all parameters but the seed — whose `base_seed + index` values
are congruent modulo 2^32 - 1 receive the same generator seed and
record identical trajectories and extinction outcomes; replicate
streams are therefore not pairwise distinct for every base seed. -/
theorem replicate_seed_congruence {σ : Type} (d : Dist σ) (st1 st2 : σ)
    (P : SimParams) (s1 s2 r1 r2 : ℕ)
    (h : (s1 + r1) % (2 ^ 32 - 1) = (s2 + r2) % (2 ^ 32 - 1))
    (h1 : r1 < P.n_replicates) (h2 : r2 < P.n_replicates) :
    (runSim d st1 P (some s1)).trajectories.getD r1 [] =
      (runSim d st2 P (some s2)).trajectories.getD r2 [] ∧
    (runSim d st1 P (some s1)).extinction_times.getD r1 none =
      (runSim d st2 P (some s2)).extinction_times.getD r2 none := by
  constructor
  · simp only [runSim, List.map_map]
    rw [getD_map_range _ _ _ _ h1, getD_map_range _ _ _ _ h2]
    simp only [Function.comp, resolveBase]
    rw [h]
  · simp only [runSim, List.map_map]
    rw [getD_map_range _ _ _ _ h1, getD_map_range _ _ _ _ h2]
    simp only [Function.comp, resolveBase]
    rw [h]

/-- Witness for C10: base seeds 0 and 2^32 - 1 at replicate index 0
are congruent modulo 2^32 - 1, and the two runs record identical
trajectories and extinction times at that index. -/
theorem replicate_seed_congruence_wit :
    (0 + 0) % (2 ^ 32 - 1) = ((2 ^ 32 - 1) + 0) % (2 ^ 32 - 1) ∧
    ((runSim unitDist () ⟨⟨[1], [1], [0], [0], 0, 0⟩, [1], [0],
        none, none, 1, 0, 1, false, false⟩ (some 0)).trajectories.getD 0 [] =
      (runSim unitDist () ⟨⟨[1], [1], [0], [0], 0, 0⟩, [1], [0],
        none, none, 1, 0, 1, false, false⟩ (some (2 ^ 32 - 1))).trajectories.getD 0 [] ∧
    (runSim unitDist () ⟨⟨[1], [1], [0], [0], 0, 0⟩, [1], [0],
        none, none, 1, 0, 1, false, false⟩ (some 0)).extinction_times.getD 0 none =
      (runSim unitDist () ⟨⟨[1], [1], [0], [0], 0, 0⟩, [1], [0],
        none, none, 1, 0, 1, false, false⟩ (some (2 ^ 32 - 1))).extinction_times.getD 0 none) :=
  ⟨by decide,
   replicate_seed_congruence unitDist () () _ 0 (2 ^ 32 - 1) 0 0
     (by decide) (by decide) (by decide)⟩

end PVA
